import Mathlib

/-!
Verification development for the PopClip extension-host core: the module
resolver and loader, the export-convention detection, the action resolution
engine, and the `authsecret` option accessor.  The repository ships the
TypeScript declaration files (`src/unnamed/part_000`, `src/unnamed/part_001`,
`src/extra/define.d.ts`) which document the runtime's behaviour; the runtime
implementation itself is not part of the repository, so the executable
definitions below are modelled from the specification and the documented
contracts in those declaration files.
-/

deriving instance DecidableEq for Except

namespace PopClip

/-! ## Module resolver

Modelled from the spec: the resolver implementation is absent from the
repository (src/unnamed/part_000 only declares `require(file: string)` and
documents its behaviour).  Spec §4.1: relative references (`./`, `../`) are
resolved against the issuing file's directory; other references against the
extension package root first, then the host's internal module repository;
extensionless references try the literal name, then `.js`, `.ts`, `.json`,
first existing file wins; exhaustion fails with `ResolutionError`. -/

/-- A filesystem snapshot: the list of existing file paths. -/
abbrev FS := List String

/-- Whether one string begins with another. -/
def strStartsWith (s pre : String) : Bool :=
  pre.data.isPrefixOf s.data

/-- Drop the first `n` characters of a string. -/
def strDrop (s : String) (n : Nat) : String :=
  String.mk (s.data.drop n)

/-- The characters of the last `/`-separated component of a character
list. -/
def lastComponent (cs : List Char) : List Char :=
  cs.foldl (fun acc c => if c = '/' then [] else acc ++ [c]) []

/-- Whether the last path component of `p` carries a file extension
(contains a dot). -/
def hasExt (p : String) : Bool :=
  (lastComponent p.data).contains '.'

/-- Try the extension candidates for an extensionless reference, in the
fixed order: as given, `.js`, `.ts`, `.json`; first existing file wins. -/
def tryCandidates (fs : FS) (p : String) : Option String :=
  if fs.contains p then some p
  else if fs.contains (p ++ ".js") then some (p ++ ".js")
  else if fs.contains (p ++ ".ts") then some (p ++ ".ts")
  else if fs.contains (p ++ ".json") then some (p ++ ".json")
  else none

/-- Resolve a reference inside one search root: a reference with an
extension is looked up literally, an extensionless one goes through the
candidate order. -/
def resolveInRoot (fs : FS) (p : String) : Option String :=
  if hasExt p then (if fs.contains p then some p else none)
  else tryCandidates fs p

/-- Directory part of a path: the characters before the last `/`, or the
whole path when it has no `/`. -/
def dirname (p : String) : String :=
  String.mk (((p.data.reverse.dropWhile (fun c => !(c == '/'))).drop 1).reverse)

/-- Whether a reference is relative (begins with `./` or `../`). -/
def isRelative (ref : String) : Bool :=
  strStartsWith ref "./" || strStartsWith ref "../"

/-- Join a reference onto a directory, stripping a leading `./` or `../`
(the latter also stepping up one directory). -/
def joinPath (dir ref : String) : String :=
  if strStartsWith ref "./" then dir ++ "/" ++ (strDrop ref 2)
  else if strStartsWith ref "../" then dirname dir ++ "/" ++ (strDrop ref 3)
  else dir ++ "/" ++ ref

/-- Resolver failure (spec §7 `ResolutionError`). -/
inductive ResolveError where
  | resolutionError
deriving DecidableEq, Repr

/-- Modelled from the spec: full resolution of `ref` issued by file
`issuer`, over the package filesystem `pkgFs` and the host's internal
module repository `repoFs`. -/
def resolve (pkgFs repoFs : FS) (issuer ref : String) :
    Except ResolveError String :=
  if isRelative ref then
    match resolveInRoot pkgFs (joinPath (dirname issuer) ref) with
    | some p => .ok p
    | none => .error .resolutionError
  else
    match resolveInRoot pkgFs ref with
    | some p => .ok p
    | none =>
      match resolveInRoot repoFs ref with
      | some p => .ok p
      | none => .error .resolutionError

/-! ## Module loader

Modelled from the spec: the loader implementation is absent from the
repository.  Spec §4.2: the cache is keyed by canonical file identity; a
hit returns the cached exported value; a miss marks the record "loading"
(cyclic references fail fast with `CyclicLoadError`), evaluates the file
(here: loads its dependencies, then allocates a fresh export value), stores
the export and clears the flag.  Export values are modelled as `Nat`
identities allocated from a counter, so "same object identity" is equality
of the allocated number, and `nextId` counts evaluations performed. -/

/-- A module's source, as far as loading is concerned: the references it
requires during evaluation. -/
structure ModuleSource where
  deps : List String
deriving DecidableEq, Repr

/-- Loader failures (spec §7). -/
inductive LoadError where
  | cyclicLoadError
  | resolutionError
  | fuelExhausted
deriving DecidableEq, Repr

/-- Loader state: the module cache (canonical identity ↦ exported value
identity), the set of identities currently loading, and the allocation
counter for fresh export-object identities. -/
structure LoadState where
  cache : List (String × Nat)
  loading : List String
  nextId : Nat
deriving DecidableEq, Repr

/-- Association-list lookup by string key. -/
def assocLookup {α : Type} : List (String × α) → String → Option α
  | [], _ => none
  | (k, v) :: rest, key => if k = key then some v else assocLookup rest key

/-- Load a list of dependencies in order with the one-file loader `load1`,
threading the state; the first failure aborts. -/
def loadMany (load1 : LoadState → String → Except LoadError (Nat × LoadState)) :
    LoadState → List String → Except LoadError LoadState
  | st, [] => .ok st
  | st, d :: ds =>
    match load1 st d with
    | .error e => .error e
    | .ok (_, st') => loadMany load1 st' ds

/-- Modelled from the spec: the loader, fuel-indexed to make the recursion
through the dependency graph total.  Cache hit returns the cached value
unchanged; an identity already marked loading fails with
`CyclicLoadError`; otherwise the identity is marked loading, dependencies
are loaded, a fresh export value is allocated and stored in the cache, and
the loading mark is cleared. -/
def loadAux (env : String → Option ModuleSource) :
    Nat → LoadState → String → Except LoadError (Nat × LoadState)
  | 0, _, _ => .error .fuelExhausted
  | fuel + 1, st, id =>
    match assocLookup st.cache id with
    | some v => .ok (v, st)
    | none =>
      if id ∈ st.loading then .error .cyclicLoadError
      else
        match env id with
        | none => .error .resolutionError
        | some src =>
          let st1 : LoadState := { st with loading := id :: st.loading }
          match loadMany (fun s d => loadAux env fuel s d) st1 src.deps with
          | .error e => .error e
          | .ok st2 =>
            .ok (st2.nextId,
              { cache := (id, st2.nextId) :: st2.cache,
                loading := st2.loading.erase id,
                nextId := st2.nextId + 1 })

/-- A successful load leaves the loaded identity in the cache, mapped to
the returned export value. -/
theorem loadAux_stores (env : String → Option ModuleSource)
    (fuel : Nat) (st : LoadState) (id : String) (v : Nat) (st' : LoadState)
    (h : loadAux env fuel st id = .ok (v, st')) :
    assocLookup st'.cache id = some v := by
  cases fuel with
  | zero => simp [loadAux] at h
  | succ n =>
    rw [loadAux] at h
    cases hc : assocLookup st.cache id with
    | some w =>
      rw [hc] at h
      simp only [Except.ok.injEq, Prod.mk.injEq] at h
      obtain ⟨hv, hst⟩ := h
      subst hv; subst hst
      exact hc
    | none =>
      rw [hc] at h
      by_cases hl : id ∈ st.loading
      · simp [hl] at h
      · simp only [hl, if_false] at h
        cases he : env id with
        | none => rw [he] at h; simp at h
        | some src =>
          rw [he] at h
          simp only at h
          cases hm : loadMany (fun s d => loadAux env n s d)
              { st with loading := id :: st.loading } src.deps with
          | error e => rw [hm] at h; simp at h
          | ok st2 =>
            rw [hm] at h
            simp only [Except.ok.injEq, Prod.mk.injEq] at h
            obtain ⟨hv, hst⟩ := h
            subst hv
            rw [← hst]
            simp [assocLookup]

/-- A load of an identity already in the cache returns the cached value
and leaves the state untouched (no re-evaluation). -/
theorem loadAux_hit (env : String → Option ModuleSource)
    (fuel : Nat) (st : LoadState) (id : String) (v : Nat)
    (h : assocLookup st.cache id = some v) :
    loadAux env (fuel + 1) st id = .ok (v, st) := by
  rw [loadAux, h]

/-- Lemma: `loadMany` preserves cache entries whenever the one-file loader does. -/
theorem loadMany_mono
    (load1 : LoadState → String → Except LoadError (Nat × LoadState))
    (hp : ∀ s d w s', load1 s d = .ok (w, s') →
      ∀ i v, assocLookup s.cache i = some v → assocLookup s'.cache i = some v)
    (ds : List String) (st st' : LoadState)
    (h : loadMany load1 st ds = .ok st')
    (i : String) (v : Nat) (hv : assocLookup st.cache i = some v) :
    assocLookup st'.cache i = some v := by
  induction ds generalizing st with
  | nil =>
    simp only [loadMany, Except.ok.injEq] at h
    subst h; exact hv
  | cons d ds ih =>
    rw [loadMany] at h
    cases h1 : load1 st d with
    | error e => rw [h1] at h; simp at h
    | ok p =>
      rw [h1] at h
      exact ih p.2 h (hp st d p.1 p.2 (by rw [h1]) i v hv)

/-- Successful loads never evict cache entries: an identity cached before
any successful load is still cached, with the same value, afterwards. -/
theorem loadAux_mono (env : String → Option ModuleSource) :
    ∀ (fuel : Nat) (st : LoadState) (id : String) (w : Nat) (st' : LoadState),
    loadAux env fuel st id = .ok (w, st') →
    ∀ (i : String) (v : Nat), assocLookup st.cache i = some v →
      assocLookup st'.cache i = some v := by
  intro fuel
  induction fuel with
  | zero => intro st id w st' h; simp [loadAux] at h
  | succ n ih =>
    intro st id w st' h i v hv
    rw [loadAux] at h
    cases hc : assocLookup st.cache id with
    | some u =>
      rw [hc] at h
      simp only [Except.ok.injEq, Prod.mk.injEq] at h
      rw [← h.2]; exact hv
    | none =>
      rw [hc] at h
      by_cases hl : id ∈ st.loading
      · simp [hl] at h
      · simp only [hl, if_false] at h
        cases he : env id with
        | none => rw [he] at h; simp at h
        | some src =>
          rw [he] at h
          simp only at h
          cases hm : loadMany (fun s d => loadAux env n s d)
              { st with loading := id :: st.loading } src.deps with
          | error e => rw [hm] at h; simp at h
          | ok st2 =>
            rw [hm] at h
            simp only [Except.ok.injEq, Prod.mk.injEq] at h
            have h2 : assocLookup st2.cache i = some v :=
              loadMany_mono _ (fun s d w s' hs => ih s d w s' hs)
                src.deps _ st2 hm i v hv
            rw [← h.2]
            simp only [assocLookup]
            by_cases hii : id = i
            · subst hii; rw [hc] at hv; exact absurd hv (by simp)
            · simp [hii, h2]

/-! ## Export-convention detection

Modelled from the spec and the documented contracts of
`src/extra/define.d.ts` (the `define` hook: "if it is called more than
once, only the final call will have any effect") and
`src/unnamed/part_000` (AMD `define(...)`, CommonJS `module.exports = ...`
or `exports.name = ...`, and TypeScript-compiled `exports.default = ...`).
A module body is modelled, as far as exporting is concerned, as the
sequence of export-relevant effects it performs during evaluation; factory
forms of `define` are already resolved to their object (spec §4.2). -/

/-- One export-relevant effect of evaluating a module body.  Exported
objects are modelled by `Nat` identities. -/
inductive Stmt where
  /-- The hook `define(...)` was invoked, its factory resolved to object `v`. -/
  | defineCall (v : Nat)
  /-- Assignment `module.exports = v`: the exports container was replaced. -/
  | assignModuleExports (v : Nat)
  /-- Assignment `exports.k = v`: a property was written on the container. -/
  | setExportsProp (k : String) (v : Nat)
deriving DecidableEq, Repr

/-- Write a property on the container, overwriting an existing key. -/
def setProp : List (String × Nat) → String → Nat → List (String × Nat)
  | [], k, v => [(k, v)]
  | (k', v') :: rest, k, v =>
    if k' = k then (k, v) :: rest else (k', v') :: setProp rest k v

/-- Evaluation state tracked for export detection: the argument of the
most recent `define` invocation (a later call overwrites an earlier one),
the most recent replacement of the exports container, and the accumulated
container properties. -/
structure EvalState where
  lastDefine : Option Nat
  replacedExports : Option Nat
  props : List (String × Nat)
deriving DecidableEq, Repr

/-- The empty evaluation state: no hook call, container not replaced,
container pre-seeded with an empty object. -/
def EvalState.init : EvalState := ⟨none, none, []⟩

/-- Effect of one statement on the evaluation state. -/
def stepStmt (st : EvalState) : Stmt → EvalState
  | .defineCall v => { st with lastDefine := some v }
  | .assignModuleExports v => { st with replacedExports := some v }
  | .setExportsProp k v => { st with props := setProp st.props k v }

/-- Evaluate a module body (its statement sequence) from the initial
state. -/
def evalStmts (stmts : List Stmt) : EvalState :=
  stmts.foldl stepStmt EvalState.init

/-- A normalized exported value: either a single object or the accumulated
exports container. -/
inductive ExportValue where
  | single (v : Nat)
  | container (props : List (String × Nat))
deriving DecidableEq, Repr

/-- Modelled from the spec (§4.2 precedence): (a) the factory hook's
resolved object if the hook was invoked; (b) else a replaced container;
(c) else the container's `default` property; (d) else the container
itself. -/
def detectExport (st : EvalState) : ExportValue :=
  match st.lastDefine with
  | some v => .single v
  | none =>
    match st.replacedExports with
    | some v => .single v
    | none =>
      match assocLookup st.props "default" with
      | some v => .single v
      | none => .container st.props

/-- The value of the last `define` invocation in a statement sequence,
computed by a right-to-left scan (independently of the evaluator). -/
def lastDefineValue : List Stmt → Option Nat
  | [] => none
  | s :: rest =>
    match lastDefineValue rest with
    | some w => some w
    | none =>
      match s with
      | .defineCall v => some v
      | _ => none

/-- The value of the last `module.exports = ...` assignment in a statement
sequence, computed by a right-to-left scan. -/
def lastAssignValue : List Stmt → Option Nat
  | [] => none
  | s :: rest =>
    match lastAssignValue rest with
    | some w => some w
    | none =>
      match s with
      | .assignModuleExports v => some v
      | _ => none

/-- The evaluator's `lastDefine` component is the last `define` argument
in the sequence, falling back to whatever the initial state held. -/
theorem foldl_lastDefine (stmts : List Stmt) (st : EvalState) :
    (stmts.foldl stepStmt st).lastDefine =
      match lastDefineValue stmts with
      | some v => some v
      | none => st.lastDefine := by
  induction stmts generalizing st with
  | nil => simp [lastDefineValue]
  | cons s rest ih =>
    rw [List.foldl_cons, ih]
    cases s <;> cases hr : lastDefineValue rest <;>
      simp [lastDefineValue, stepStmt, hr]

/-- The evaluator's `replacedExports` component is the last
`module.exports` assignment in the sequence, falling back to the initial
state. -/
theorem foldl_replacedExports (stmts : List Stmt) (st : EvalState) :
    (stmts.foldl stepStmt st).replacedExports =
      match lastAssignValue stmts with
      | some v => some v
      | none => st.replacedExports := by
  induction stmts generalizing st with
  | nil => simp [lastAssignValue]
  | cons s rest ih =>
    rw [List.foldl_cons, ih]
    cases s <;> cases hr : lastAssignValue rest <;>
      simp [lastAssignValue, stepStmt, hr]

/-! ## Classified input, context and options

Shallow embedding of the `Input`, `Context` and `Options` shapes declared
in src/unnamed/part_001 (only the fields the resolution engine reads).
Detected-entity lists carry just the detected strings; source ranges are
irrelevant to the filtering decisions modelled here. -/

/-- Detected-entity data of the classified input (part_001 `Input.data`). -/
structure InputData where
  urls : List String
  nonHttpUrls : List String
  emails : List String
  paths : List String
deriving DecidableEq, Repr

/-- The classified selection (part_001 `Input`, filtering-relevant
fields). -/
structure Input where
  text : String
  data : InputData
deriving DecidableEq, Repr

/-- The invocation context (part_001 `Context`, filtering-relevant
fields). -/
structure Context where
  hasFormatting : Bool
  canPaste : Bool
  canCopy : Bool
  canCut : Bool
  appIdentifier : String
deriving DecidableEq, Repr

/-- Current option values, as an association list from option identifier
to its string value (part_001 `Options`). -/
abbrev OptionsMap := List (String × String)

/-- Modifier-key state (part_001 `Modifiers`). -/
structure Modifiers where
  shift : Bool
  control : Bool
  option : Bool
  command : Bool
deriving DecidableEq, Repr

/-- The all-false modifier state reported while no physical key event
exists (part_001 `PopClip.modifiers` note). -/
def Modifiers.allFalse : Modifiers := ⟨false, false, false, false⟩

/-! ## Requirement tokens

Embedding of the `Requirement` / `NegatedRequirement` string union of
part_001 lines 91-104 as an inductive, with the satisfaction semantics
modelled from the spec (§4.3 step 2(b) and §8). -/

/-- A base requirement token (part_001 `Requirement`). -/
inductive BaseReq where
  | text
  | cut
  | paste
  | formatting
  | url
  | urls
  | email
  | emails
  | path
  | option (key value : String)
deriving DecidableEq, Repr

/-- A possibly negated requirement token (part_001 `Requirement` and
`NegatedRequirement`). -/
inductive ReqToken where
  | pos (r : BaseReq)
  | neg (r : BaseReq)
deriving DecidableEq, Repr

/-- Modelled from the spec: whether a base requirement token holds against
the classified input, context and option values. -/
def baseSat (r : BaseReq) (input : Input) (ctx : Context)
    (opts : OptionsMap) : Bool :=
  match r with
  | .text => !(input.text == "")
  | .cut => ctx.canCut
  | .paste => ctx.canPaste
  | .formatting => ctx.hasFormatting
  | .url => !input.data.urls.isEmpty
  | .urls => !input.data.urls.isEmpty
  | .email => !input.data.emails.isEmpty
  | .emails => !input.data.emails.isEmpty
  | .path => !input.data.paths.isEmpty
  | .option k v => assocLookup opts k == some v

/-- Whether a possibly negated token holds: a negated token inverts the
corresponding base check (spec §4.3 step 2(b)). -/
def tokenSat (t : ReqToken) (input : Input) (ctx : Context)
    (opts : OptionsMap) : Bool :=
  match t with
  | .pos r => baseSat r input ctx opts
  | .neg r => !baseSat r input ctx opts

/-! ## Pattern checks

Embedding of the JavaScript-regex backing of the pattern capability.  A
`JsRegex` bundles the pure matching function of the compiled pattern (from
a start position, the earliest match at or after it: its end position and
matched text), the `g`/`y` flags, and the mutable `lastIndex` cursor that
`exec` reads and writes when either flag is set.  Per the documented
contract (part_001 line 342) the engine resets `lastIndex` before and
after each invocation. -/

/-- A JavaScript regex object: flags, match cursor, and the pure matcher
of the compiled pattern. -/
structure JsRegex where
  global : Bool
  sticky : Bool
  lastIndex : Nat
  matchFrom : String → Nat → Option (Nat × String)

/-- JavaScript `exec` semantics: with the `g` or `y` flag the search
starts at `lastIndex` and the cursor is updated (to the match end on a
match, to `0` on failure); without either flag the search starts at `0`
and the cursor is untouched. -/
def execRegex (r : JsRegex) (text : String) :
    Option (Nat × String) × JsRegex :=
  if r.global || r.sticky then
    match r.matchFrom text r.lastIndex with
    | some (e, m) => (some (e, m), { r with lastIndex := e })
    | none => (none, { r with lastIndex := 0 })
  else
    (r.matchFrom text 0, r)

/-- Modelled from the spec: the engine's pattern check.  `lastIndex` is
reset to `0` before the check and again after it (part_001 line 342); the
outcome is the matched text, if any. -/
def checkRegex (r : JsRegex) (text : String) : Option String × JsRegex :=
  ((execRegex { r with lastIndex := 0 } text).1.map (fun p => p.2),
   { (execRegex { r with lastIndex := 0 } text).2 with lastIndex := 0 })

/-! ## Action declarations and the resolution engine

Modelled from the spec (§4.3) and part_001 (`ActionProperties`,
`Extension.actions`): per static action, the app allow/deny check, the
requirement check over the effective requirement list (own list, else the
extension's, else `["text"]`), and the pattern check over the effective
pattern (own, else the extension's, else none); a population callback
replaces all of that and its thrown faults are swallowed. -/

/-- A static action declaration (filtering-relevant fields of part_001
`Action` / `ActionProperties`). -/
structure ActionDecl where
  identifier : String
  requirements : Option (List ReqToken)
  regex : Option JsRegex
  requiredApps : Option (List String)
  excludedApps : Option (List String)

/-- An action as resolved for one invocation: the declaration plus the
matched text (the pattern's match if a pattern check occurred, otherwise
the full selection text). -/
structure ResolvedAction where
  action : ActionDecl
  matchedText : String

/-- A population callback: receives the classified input, current option
values, context, and the reported modifier state; returns the action list
or throws (modelled by `Except`). -/
abbrev PopFn := Input → OptionsMap → Context → Modifiers →
  Except String (List ActionDecl)

/-- The `actions` field of an extension: a static list or a population
callback (part_001 `Extension.actions`). -/
inductive ActionsDecl where
  | staticList (acts : List ActionDecl)
  | population (f : PopFn)

/-- An extension declaration (filtering-relevant fields of part_001
`Extension`). -/
structure ExtensionDecl where
  requirements : Option (List ReqToken)
  regex : Option JsRegex
  actionsDecl : ActionsDecl

/-- The effective requirement list of an action: its own list, else the
extension's list, else the single default token `text` (part_001 lines
290-304). -/
def effectiveReqs (ext : ExtensionDecl) (act : ActionDecl) : List ReqToken :=
  match act.requirements with
  | some l => l
  | none =>
    match ext.requirements with
    | some l => l
    | none => [.pos .text]

/-- The requirement check: every token of the effective list must hold
(spec §4.3 step 2(b)); an empty list passes vacuously. -/
def requirementCheck (ext : ExtensionDecl) (act : ActionDecl)
    (input : Input) (ctx : Context) (opts : OptionsMap) : Bool :=
  (effectiveReqs ext act).all (fun t => tokenSat t input ctx opts)

/-- The effective pattern of an action: its own, else the extension's
(part_001 lines 323-326). -/
def effectiveRegex (ext : ExtensionDecl) (act : ActionDecl) :
    Option JsRegex :=
  match act.regex with
  | some r => some r
  | none => ext.regex

/-- The app allow/deny check: excluded if a deny list is present and
matches the host app, or if an allow list is present and does not
(spec §4.3 step 2(a), part_001 `requiredApps`/`excludedApps`). -/
def appCheck (act : ActionDecl) (ctx : Context) : Bool :=
  (match act.excludedApps with
   | some l => !(l.contains ctx.appIdentifier)
   | none => true)
  && (match act.requiredApps with
      | some l => l.contains ctx.appIdentifier
      | none => true)

/-- Modelled from the spec: resolution of one statically declared action —
app check, then requirement check, then pattern check; a surviving action
carries the matched text, otherwise the full selection text. -/
def staticResolve (ext : ExtensionDecl) (input : Input) (ctx : Context)
    (opts : OptionsMap) (act : ActionDecl) : Option ResolvedAction :=
  if appCheck act ctx && requirementCheck ext act input ctx opts then
    match effectiveRegex ext act with
    | none => some ⟨act, input.text⟩
    | some r =>
      match (checkRegex r input.text).1 with
      | some m => some ⟨act, m⟩
      | none => none
  else none

/-- The engine's result for one extension: the resolved actions, plus the
trace of modifier states passed to population-callback invocations (one
entry per invocation). -/
structure ExtResult where
  actions : List ResolvedAction
  popCalls : List Modifiers

/-- Modelled from the spec: resolution of one extension.  A static list is
filtered action by action, order-preserving; a population callback is
invoked once with the classified input, option values and context, with
modifier state reported all-false, its returned actions are taken as-is
(no requirement or pattern filtering), and a thrown fault yields zero
actions instead of propagating. -/
def resolveExtension (ext : ExtensionDecl) (input : Input) (ctx : Context)
    (opts : OptionsMap) : ExtResult :=
  match ext.actionsDecl with
  | .staticList acts =>
    ⟨acts.filterMap (staticResolve ext input ctx opts), []⟩
  | .population f =>
    match f input opts ctx Modifiers.allFalse with
    | .ok acts => ⟨acts.map (fun a => ⟨a, input.text⟩), [Modifiers.allFalse]⟩
    | .error _ => ⟨[], [Modifiers.allFalse]⟩

/-- Modelled from the spec: a host session resolving several extensions,
each independently. -/
def resolveSession (exts : List ExtensionDecl) (input : Input)
    (ctx : Context) (opts : OptionsMap) : List ExtResult :=
  exts.map (fun e => resolveExtension e input ctx opts)

/-! ## The `authsecret` accessor

Modelled from the spec: the accessor implementation is absent from the
repository; part_001 lines 786-795 (`AuthOptions`) document that accessing
`authsecret` throws an `Error` with the message `Not signed in` while it
is undefined or holds an empty string. -/

/-- Access the `authsecret` property of the options object: `none` models
the undefined state; a throw is modelled as `Except.error` carrying the
error message. -/
def authsecretAccess (stored : Option String) : Except String String :=
  match stored with
  | none => .error "Not signed in"
  | some s => if s = "" then .error "Not signed in" else .ok s

/-! ## Concrete fixtures used by the claim witnesses -/

/-- A module environment with two independent leaf modules `a` and `b`. -/
def env2 (s : String) : Option ModuleSource :=
  if s = "a" then some ⟨[]⟩ else if s = "b" then some ⟨[]⟩ else none

/-- A module environment whose module `a` requires itself directly. -/
def envSelf (s : String) : Option ModuleSource :=
  if s = "a" then some ⟨["a"]⟩ else none

/-- A module environment with a transitive cycle `a → b → a`. -/
def envCyc (s : String) : Option ModuleSource :=
  if s = "a" then some ⟨["b"]⟩ else if s = "b" then some ⟨["a"]⟩ else none

/-- A pattern that never matches, to exercise pattern-independence. -/
def regexNever : JsRegex := ⟨false, false, 0, fun _ _ => none⟩

/-- An extension with no extension-level requirements or pattern and an
empty static list. -/
def extW : ExtensionDecl := ⟨none, none, .staticList []⟩

/-- An action requiring a detected URL, carrying a (never-matching)
pattern. -/
def actUrl : ActionDecl := ⟨"open-url", some [.pos .url], some regexNever, none, none⟩

/-- A classified selection containing one detected URL. -/
def inputUrl : Input := ⟨"see https://example.com", ⟨["https://example.com"], [], [], []⟩⟩

/-- A host context fixture. -/
def ctxW : Context := ⟨false, true, true, false, "com.example.app"⟩

/-- A population callback returning one dynamically generated action. -/
def fW : PopFn := fun _ _ _ _ => .ok [⟨"dyn", some [.pos .url], none, none, none⟩]

/-- An extension declared through the population callback `fW`. -/
def extPop : ExtensionDecl := ⟨none, none, .population fW⟩

/-- A population callback that throws. -/
def fBad : PopFn := fun _ _ _ _ => .error "boom"

/-- An extension whose population callback throws. -/
def extBad : ExtensionDecl := ⟨none, none, .population fBad⟩

/-! ## Claim theorems -/

/-- Claim C1: for every canonical file identity, the loader evaluates the
file at most once per process.  After a successful `loadAux` returning
export value `v` and state `st₁`: the value is stored in the cache; a
subsequent load of the same identity returns the identical export value
`v` (same object identity, since values are allocation identities) with
the state unchanged — so no re-evaluation occurs (`nextId`, the evaluation
counter, does not move); and the same holds after any intervening
successful load of another identity. -/
theorem load_cached_once (env : String → Option ModuleSource)
    (fuel fuel₂ fuel₃ : Nat) (st st₁ : LoadState) (id : String) (v : Nat)
    (h : loadAux env fuel st id = .ok (v, st₁)) :
    assocLookup st₁.cache id = some v
    ∧ loadAux env (fuel₂ + 1) st₁ id = .ok (v, st₁)
    ∧ ∀ (id₂ : String) (w : Nat) (st₂ : LoadState),
        loadAux env fuel₂ st₁ id₂ = .ok (w, st₂) →
        loadAux env (fuel₃ + 1) st₂ id = .ok (v, st₂) := by
  have hc := loadAux_stores env fuel st id v st₁ h
  refine ⟨hc, loadAux_hit env fuel₂ st₁ id v hc, ?_⟩
  intro id₂ w st₂ h2
  exact loadAux_hit env fuel₃ st₂ id v
    (loadAux_mono env fuel₂ st₁ id₂ w st₂ h2 id v hc)

/-- Witness for C1 on the concrete environment `env2`: after loading `a`,
a reload returns the same export identity and state; and after an
intervening load of `b`, reloading `a` still returns the original
identity. -/
theorem load_cached_once_witness :
    loadAux env2 2 ⟨[("a", 0)], [], 1⟩ "a" = .ok (0, ⟨[("a", 0)], [], 1⟩)
    ∧ loadAux env2 2 ⟨[("b", 1), ("a", 0)], [], 2⟩ "a"
        = .ok (0, ⟨[("b", 1), ("a", 0)], [], 2⟩) := by
  have h := load_cached_once env2 1 1 1 ⟨[], [], 0⟩ ⟨[("a", 0)], [], 1⟩ "a" 0
    (by decide)
  exact ⟨h.2.1, h.2.2 "b" 1 ⟨[("b", 1), ("a", 0)], [], 2⟩ (by decide)⟩

/-- Claim C4: a module that requires itself while still loading fails with
`CyclicLoadError` rather than returning a partial export: loading any
uncached identity already marked loading fails with `CyclicLoadError`;
concretely, a direct self-require (`envSelf`) and a transitive cycle
`a → b → a` (`envCyc`) both fail that way (the model is a total function,
so no execution hangs). -/
theorem cyclic_load_fails :
    (∀ (env : String → Option ModuleSource) (fuel : Nat) (st : LoadState)
      (id : String), assocLookup st.cache id = none → id ∈ st.loading →
      loadAux env (fuel + 1) st id = .error .cyclicLoadError)
    ∧ loadAux envSelf 2 ⟨[], [], 0⟩ "a" = .error .cyclicLoadError
    ∧ loadAux envCyc 3 ⟨[], [], 0⟩ "a" = .error .cyclicLoadError := by
  refine ⟨?_, by decide, by decide⟩
  intro env fuel st id h1 h2
  rw [loadAux, h1]
  simp [h2]

/-- Witness for C4: the general part applied to a concrete state in which
`a` is marked loading. -/
theorem cyclic_load_fails_witness :
    loadAux env2 1 ⟨[], ["a"], 0⟩ "a" = .error .cyclicLoadError :=
  cyclic_load_fails.1 env2 0 ⟨[], ["a"], 0⟩ "a" (by decide) (by decide)

/-- Claim C3: for an extensionless reference the resolver tries, in strict
order, the literal name, then `.js`, `.ts`, `.json`, returning the first
candidate that exists; and in a package containing only `lib/helper.ts`,
resolving `./helper` from `lib/main.js` yields `lib/helper.ts`. -/
theorem extension_candidate_order :
    (∀ (fs : FS) (ref : String), hasExt ref = false →
      resolveInRoot fs ref =
        ([ref, ref ++ ".js", ref ++ ".ts", ref ++ ".json"]).find?
          (fun c => fs.contains c))
    ∧ resolve ["lib/helper.ts"] [] "lib/main.js" "./helper"
        = .ok "lib/helper.ts" := by
  refine ⟨?_, by decide⟩
  intro fs ref h
  simp only [resolveInRoot, h, Bool.false_eq_true, if_false, tryCandidates]
  by_cases h1 : ref ∈ fs <;>
    by_cases h2 : ref ++ ".js" ∈ fs <;>
      by_cases h3 : ref ++ ".ts" ∈ fs <;>
        by_cases h4 : ref ++ ".json" ∈ fs <;>
          simp [List.find?, h1, h2, h3, h4]

/-- Witness for C3: the candidate-order part applied to a directory
holding only `helper.ts`. -/
theorem extension_candidate_order_witness :
    resolveInRoot ["helper.ts"] "helper" =
      (["helper", "helper" ++ ".js", "helper" ++ ".ts",
        "helper" ++ ".json"]).find?
        (fun c => (["helper.ts"] : FS).contains c) :=
  extension_candidate_order.1 ["helper.ts"] "helper" (by decide)

/-- Claim C9: search-root selection.  A relative reference (`./`, `../`)
is resolved against the issuing file's directory and never consults the
internal repository (the result is independent of the repository
contents, and depends on the issuer only through its directory); a
non-relative reference is resolved against the package root first, the
repository being consulted only when no candidate exists in the package;
and when no candidate exists in either root, resolution fails with
`ResolutionError`. -/
theorem resolver_roots :
    (∀ (pkgFs repoFs repoFs' : FS) (issuer ref : String),
      isRelative ref = true →
      resolve pkgFs repoFs issuer ref = resolve pkgFs repoFs' issuer ref)
    ∧ (∀ (pkgFs repoFs : FS) (issuer issuer' ref : String),
      isRelative ref = true → dirname issuer = dirname issuer' →
      resolve pkgFs repoFs issuer ref = resolve pkgFs repoFs issuer' ref)
    ∧ (∀ (pkgFs repoFs : FS) (issuer ref p : String),
      isRelative ref = false → resolveInRoot pkgFs ref = some p →
      resolve pkgFs repoFs issuer ref = .ok p)
    ∧ (∀ (pkgFs repoFs : FS) (issuer ref p : String),
      isRelative ref = false → resolveInRoot pkgFs ref = none →
      resolveInRoot repoFs ref = some p →
      resolve pkgFs repoFs issuer ref = .ok p)
    ∧ (∀ (pkgFs repoFs : FS) (issuer ref : String),
      isRelative ref = false → resolveInRoot pkgFs ref = none →
      resolveInRoot repoFs ref = none →
      resolve pkgFs repoFs issuer ref = .error .resolutionError) := by
  refine ⟨?_, ?_, ?_, ?_, ?_⟩
  · intro pkgFs repoFs repoFs' issuer ref h
    simp only [resolve, h, if_true]
  · intro pkgFs repoFs issuer issuer' ref h hd
    simp only [resolve, h, if_true, joinPath, hd]
  · intro pkgFs repoFs issuer ref p h h1
    simp [resolve, h, h1]
  · intro pkgFs repoFs issuer ref p h h1 h2
    simp [resolve, h, h1, h2]
  · intro pkgFs repoFs issuer ref h h1 h2
    simp [resolve, h, h1, h2]

/-- Witness for C9: a non-relative reference absent from the package root
falls back to the internal module repository. -/
theorem resolver_roots_witness :
    resolve [] ["util.js"] "main.js" "util" = .ok "util.js" :=
  resolver_roots.2.2.2.1 [] ["util.js"] "main.js" "util" "util.js"
    (by decide) (by decide) (by decide)

/-- Claim C2: export-convention precedence for non-JSON evaluation.  If
the factory-registration hook (`define`) was invoked at all during the
module body, the export is the object of its final invocation — earlier
registrations are silently discarded and anything written to the exports
container is overridden; otherwise a replaced exports container wins, then
the container's primary-export (`default`) property, then the accumulated
container itself. -/
theorem export_convention_precedence (stmts : List Stmt) (v : Nat) :
    (lastDefineValue stmts = some v →
      detectExport (evalStmts stmts) = .single v)
    ∧ (lastDefineValue stmts = none → lastAssignValue stmts = some v →
      detectExport (evalStmts stmts) = .single v)
    ∧ (lastDefineValue stmts = none → lastAssignValue stmts = none →
      assocLookup (evalStmts stmts).props "default" = some v →
      detectExport (evalStmts stmts) = .single v)
    ∧ (lastDefineValue stmts = none → lastAssignValue stmts = none →
      assocLookup (evalStmts stmts).props "default" = none →
      detectExport (evalStmts stmts)
        = .container (evalStmts stmts).props) := by
  have hd := foldl_lastDefine stmts EvalState.init
  have ha := foldl_replacedExports stmts EvalState.init
  refine ⟨?_, ?_, ?_, ?_⟩
  · intro h
    have hd' : (evalStmts stmts).lastDefine = some v := by
      rw [evalStmts, hd, h]
    simp [detectExport, hd']
  · intro h1 h2
    have hd' : (evalStmts stmts).lastDefine = none := by
      rw [evalStmts, hd, h1]; rfl
    have ha' : (evalStmts stmts).replacedExports = some v := by
      rw [evalStmts, ha, h2]
    simp [detectExport, hd', ha']
  · intro h1 h2 h3
    have hd' : (evalStmts stmts).lastDefine = none := by
      rw [evalStmts, hd, h1]; rfl
    have ha' : (evalStmts stmts).replacedExports = none := by
      rw [evalStmts, ha, h2]; rfl
    simp [detectExport, hd', ha', h3]
  · intro h1 h2 h3
    have hd' : (evalStmts stmts).lastDefine = none := by
      rw [evalStmts, hd, h1]; rfl
    have ha' : (evalStmts stmts).replacedExports = none := by
      rw [evalStmts, ha, h2]; rfl
    simp [detectExport, hd', ha', h3]

/-- Witness for C2: a module body that writes a `default` property,
registers twice through the hook, and replaces the exports container,
exports exactly the object of the final hook invocation. -/
theorem export_convention_precedence_witness :
    detectExport (evalStmts
      [.setExportsProp "default" 7, .defineCall 1,
       .assignModuleExports 5, .defineCall 2]) = .single 2 :=
  (export_convention_precedence
    [.setExportsProp "default" 7, .defineCall 1,
     .assignModuleExports 5, .defineCall 2] 2).1 (by decide)

/-- Claim C5: the requirement check holds exactly when every token of the
effective requirement list — the action's own list, else the extension's,
else the single default token `text` meaning non-empty text selected — is
satisfied, negated tokens inverting the base check and an empty list
always passing; an action whose requirement list is `["url"]` passes the
check precisely when the classified data contains at least one URL,
whatever pattern the action carries (the check reads no pattern). -/
theorem requirement_check_semantics (ext : ExtensionDecl) (act : ActionDecl)
    (input : Input) (ctx : Context) (opts : OptionsMap) :
    (requirementCheck ext act input ctx opts = true ↔
      ∀ t ∈ effectiveReqs ext act, tokenSat t input ctx opts = true)
    ∧ (act.requirements = some [] →
      requirementCheck ext act input ctx opts = true)
    ∧ (act.requirements = none → ext.requirements = none →
      (requirementCheck ext act input ctx opts = true ↔ input.text ≠ ""))
    ∧ (∀ r : BaseReq,
      tokenSat (.neg r) input ctx opts = !baseSat r input ctx opts)
    ∧ (act.requirements = some [.pos .url] →
      (requirementCheck ext act input ctx opts = true ↔
        input.data.urls ≠ [])) := by
  refine ⟨?_, ?_, ?_, fun r => rfl, ?_⟩
  · simp [requirementCheck, List.all_eq_true]
  · intro h
    simp [requirementCheck, effectiveReqs, h]
  · intro h1 h2
    simp [requirementCheck, effectiveReqs, h1, h2, tokenSat, baseSat]
  · intro h
    simp only [requirementCheck, effectiveReqs, h, List.all_cons,
      List.all_nil, Bool.and_true, tokenSat, baseSat]
    cases input.data.urls <;> simp

/-- Witness for C5: an action requiring a URL, and carrying a
never-matching pattern, passes the requirement check against a selection
whose classified data holds one URL. -/
theorem requirement_check_semantics_witness :
    requirementCheck extW actUrl inputUrl ctxW [] = true :=
  ((requirement_check_semantics extW actUrl inputUrl ctxW []).2.2.2.2
    rfl).mpr (by decide)

/-- The pattern check always hands back the regex with its cursor reset:
the returned object differs from the input only in `lastIndex`, which is
`0`. -/
theorem checkRegex_state (r : JsRegex) (t : String) :
    (checkRegex r t).2 = { r with lastIndex := 0 } := by
  cases hgs : (r.global || r.sticky) with
  | false => simp [checkRegex, execRegex, hgs]
  | true =>
    cases hm : r.matchFrom t 0 with
    | none => simp [checkRegex, execRegex, hgs, hm]
    | some p => simp [checkRegex, execRegex, hgs, hm]

/-- Claim C6: every pattern check resets the match cursor before and after
the check.  The check's entire result ignores the incoming `lastIndex`;
the regex object comes back with `lastIndex = 0`; a check run right after
another check (on any other text) behaves exactly like a fresh check; and
the `g`/`y` flags have no effect on the match outcome. -/
theorem pattern_cursor_reset (r : JsRegex) (t t1 t2 : String) (n : Nat) :
    checkRegex { r with lastIndex := n } t = checkRegex r t
    ∧ (checkRegex r t).2.lastIndex = 0
    ∧ checkRegex (checkRegex r t1).2 t2 = checkRegex r t2
    ∧ (checkRegex { r with global := true } t).1
        = (checkRegex { r with global := false } t).1
    ∧ (checkRegex { r with sticky := true } t).1
        = (checkRegex { r with sticky := false } t).1 := by
  refine ⟨rfl, ?_, ?_, ?_, ?_⟩
  · rw [checkRegex]
  · rw [checkRegex_state r t1]; rfl
  · simp only [checkRegex, execRegex]
    by_cases hs : r.sticky = true <;>
      cases hm : r.matchFrom t 0 <;>
        simp [hs, hm]
  · simp only [checkRegex, execRegex]
    by_cases hg : r.global = true <;>
      cases hm : r.matchFrom t 0 <;>
        simp [hg, hm]

/-- Claim C7: an extension supplying a population callback has it invoked
exactly once per resolution, with the classified input, current option
values and context, the modifier-key state reported all-false; the
returned actions are taken as-is, in order, with no requirement or
pattern filtering — whatever `requirements` or `regex` fields they
declare. -/
theorem population_path (ext : ExtensionDecl) (f : PopFn) (input : Input)
    (ctx : Context) (opts : OptionsMap)
    (h : ext.actionsDecl = .population f) :
    (resolveExtension ext input ctx opts).popCalls = [Modifiers.allFalse]
    ∧ ∀ acts, f input opts ctx Modifiers.allFalse = .ok acts →
        (resolveExtension ext input ctx opts).actions
          = acts.map (fun a => ⟨a, input.text⟩) := by
  constructor
  · simp only [resolveExtension, h]
    cases hf : f input opts ctx Modifiers.allFalse <;> simp [hf]
  · intro acts ha
    simp only [resolveExtension, h, ha]

/-- Witness for C7: a callback returning one action whose declared
requirement (`url`) the selection meets or not is irrelevant — the action
is included as returned, and the callback ran once under all-false
modifiers. -/
theorem population_path_witness :
    (resolveExtension extPop inputUrl ctxW []).popCalls
        = [Modifiers.allFalse]
    ∧ (resolveExtension extPop inputUrl ctxW []).actions
        = [⟨⟨"dyn", some [.pos .url], none, none, none⟩, inputUrl.text⟩] := by
  have h := population_path extPop fW inputUrl ctxW [] rfl
  exact ⟨h.1, h.2 _ rfl⟩

/-- Claim C8: a population callback that throws contributes zero actions
for that invocation, the engine returning normally rather than
propagating the fault; and in a session resolving several extensions each
extension is resolved independently, so another extension's actions are
unaffected. -/
theorem population_fault_isolated (ext1 ext2 : ExtensionDecl) (f : PopFn)
    (input : Input) (ctx : Context) (opts : OptionsMap) (e : String)
    (h : ext1.actionsDecl = .population f)
    (hf : f input opts ctx Modifiers.allFalse = .error e) :
    (resolveExtension ext1 input ctx opts).actions = []
    ∧ resolveSession [ext1, ext2] input ctx opts
        = [resolveExtension ext1 input ctx opts,
           resolveExtension ext2 input ctx opts] := by
  refine ⟨?_, rfl⟩
  simp only [resolveExtension, h, hf]

/-- Witness for C8: `extBad`'s callback throws and contributes nothing,
while `extPop` in the same session resolves independently. -/
theorem population_fault_isolated_witness :
    (resolveExtension extBad inputUrl ctxW []).actions = []
    ∧ resolveSession [extBad, extPop] inputUrl ctxW []
        = [resolveExtension extBad inputUrl ctxW [],
           resolveExtension extPop inputUrl ctxW []] :=
  population_fault_isolated extBad extPop fBad inputUrl ctxW [] "boom"
    rfl rfl

/-- Claim C10: accessing `authsecret` while it is undefined or holds the
empty string throws an `Error` with the message `Not signed in`; when it
holds a non-empty string, the access returns that string without
throwing. -/
theorem authsecret_behavior :
    authsecretAccess none = .error "Not signed in"
    ∧ authsecretAccess (some "") = .error "Not signed in"
    ∧ ∀ s : String, s ≠ "" → authsecretAccess (some s) = .ok s := by
  refine ⟨rfl, rfl, ?_⟩
  intro s hs
  simp [authsecretAccess, hs]

/-- Witness for C10: a concrete non-empty secret is returned as stored. -/
theorem authsecret_behavior_witness :
    authsecretAccess (some "token123") = .ok "token123" :=
  authsecret_behavior.2.2 "token123" (by decide)

end PopClip
